import Mathlib

/-!
Verification development for the aether message-bus core
(crate aether-core: channel.rs, wave.rs, aether.rs, reliability.rs, vibrator.rs).

Conventions of the embedding:
* Rust machine integers (u16/u32/u64/usize) are modelled as `Nat`, with an
  explicit `% 2 ^ 64` (resp. `min` against a type maximum) exactly where the
  source performs wrapping or saturating arithmetic.
* Rust `f64` scalars that the source manipulates algebraically (amplitudes,
  noise floors, factors) are modelled as `ℚ`, the exact field containing all
  binary floating-point values; the wave phase, which is advanced by π/4,
  is modelled as `ℝ`.
* Fallible operations return `Except`; `Option` models Rust `Option`.
-/

-- Mathlib marks the arithmetic of `Rat` irreducible; restore the default
-- reducibility so that concrete rational computations reduce under `decide`.
set_option allowUnsafeReducibility true in
attribute [semireducible] Rat.mul Rat.div Rat.inv Rat.neg

namespace AetherSpec

/-! ## Byte-level view of strings

Rust's `str::len` and `str::bytes` operate on the UTF-8 encoding.  `utf8Bytes`
is the standard UTF-8 encoder for a single scalar value, so `strBytes s` is
the list of bytes of `s` and `(strBytes s).length` models `s.len()`. -/

def utf8Bytes (c : Char) : List Nat :=
  let n := c.toNat
  if n < 0x80 then [n]
  else if n < 0x800 then [0xC0 + n / 64, 0x80 + n % 64]
  else if n < 0x10000 then [0xE0 + n / 4096, 0x80 + n / 64 % 64, 0x80 + n % 64]
  else [0xF0 + n / 262144, 0x80 + n / 4096 % 64, 0x80 + n / 64 % 64, 0x80 + n % 64]

def strBytes (s : String) : List Nat :=
  (s.data.map utf8Bytes).flatten

/-! ## Channel (src/aether-core/src/channel.rs) -/

/-- `Channel` from channel.rs: a name plus its segments.
`Channel::new` splits the name on `'.'`. -/
structure Channel where
  name : String
  segments : List String
deriving DecidableEq, Repr

/-- Rust `str::split('.')`: cut at every dot; adjacent dots and leading or
trailing dots produce empty segments, and the empty string yields `[""]`. -/
def splitDotAux : List Char → List Char → List String
  | [], acc => [String.mk acc.reverse]
  | c :: cs, acc =>
    if c = '.' then String.mk acc.reverse :: splitDotAux cs []
    else splitDotAux cs (c :: acc)

def splitDot (s : String) : List String :=
  splitDotAux s.data []

namespace Channel

/-- `Channel::new` (channel.rs): keep the name, split it on `'.'`. -/
def new (name : String) : Channel :=
  ⟨name, splitDot name⟩

/-- `Channel::matches` (channel.rs lines 32-50); `matches` is a reserved
token in Lean, hence the longer name. -/
def matchesPattern (self pat : Channel) : Bool :=
  if pat.name == "*" then true
  else if self.segments.length != pat.segments.length then
    if pat.segments.getLast? == some "*" then
      -- `self.segments.starts_with(&pattern.segments[..len-1])`
      pat.segments.dropLast.isPrefixOf self.segments
    else false
  else
    (self.segments.zip pat.segments).all fun sp => sp.2 == "*" || sp.1 == sp.2

/-- `Channel::hop` (channel.rs): derived child channel `"<name>.hop<i mod max(n,1)>"`.
The Rust arguments are `u16`; callers stay inside that range. -/
def hop (self : Channel) (hopIndex hopCount : Nat) : Channel :=
  Channel.new (self.name ++ ".hop" ++ toString (hopIndex % max hopCount 1))

/-- `Channel::hop_seed` (channel.rs lines 94-98): fold the UTF-8 bytes of the
name as `acc = acc * 131 + b` in wrapping `u64` arithmetic. -/
def hopSeed (self : Channel) : Nat :=
  (strBytes self.name).foldl (fun acc b => (acc * 131 + b) % 2 ^ 64) 0

/-- `Channel::hop_index_at_ms` (channel.rs lines 71-77).  `timestampMs` and
`hopIntervalMs` are `u64`, `hopCount` is `u16`; `slot.wrapping_add(seed)`
is the sum reduced modulo `2 ^ 64`. -/
def hopIndexAtMs (self : Channel) (timestampMs hopCount hopIntervalMs : Nat) : Nat :=
  let count := max hopCount 1
  let interval := max hopIntervalMs 1
  let slot := timestampMs / interval
  (slot + self.hopSeed) % 2 ^ 64 % count

/-- `Channel::hop_at_ms` (channel.rs lines 80-83). -/
def hopAtMs (self : Channel) (timestampMs hopCount hopIntervalMs : Nat) : Channel :=
  self.hop (self.hopIndexAtMs timestampMs hopCount hopIntervalMs) hopCount

end Channel

/-! ## Amplitude (src/aether-core/src/wave.rs lines 9-37) -/

/-- Rust `f64::min` on non-NaN values (spelled out so it reduces). -/
def qMin (a b : ℚ) : ℚ := if a ≤ b then a else b

/-- Rust `f64::max` on non-NaN values. -/
def qMax (a b : ℚ) : ℚ := if a ≤ b then b else a

/-- Rust `f64::clamp(lo, hi)`. -/
def clampQ (v lo hi : ℚ) : ℚ := qMin (qMax v lo) hi

/-- `Amplitude` (wave.rs): a wrapped scalar. -/
structure Amplitude where
  val : ℚ
deriving DecidableEq, Repr

namespace Amplitude

/-- `Amplitude::new`: clamp the argument into `[0, 1]`. -/
def new (v : ℚ) : Amplitude := ⟨clampQ v 0 1⟩

/-- `Amplitude::attenuate`: multiply by `factor.clamp(0, 1)`. -/
def attenuate (a : Amplitude) (factor : ℚ) : Amplitude :=
  ⟨a.val * clampQ factor 0 1⟩

/-- `Amplitude::amplify`: multiply by the factor, cap the result at 1. -/
def amplify (a : Amplitude) (factor : ℚ) : Amplitude :=
  ⟨qMin (a.val * factor) 1⟩

/-- `Amplitude::default`: value 1. -/
def dfault : Amplitude := ⟨1⟩

end Amplitude

/-! ## Wave (src/aether-core/src/wave.rs) -/

/-- `WaveType` (wave.rs). -/
inductive WaveType
  | event
  | command
  | query
  | response
  | broadcast
deriving DecidableEq, Repr

/-- `DEFAULT_MIN_AMPLITUDE` (wave.rs line 98): the validity threshold 0.01. -/
def defaultMinAmplitude : ℚ := 1 / 100

/-- `Wave` (wave.rs lines 55-96).  Two representation choices:
* `payloadLen` stands for `serde_json::to_vec(&self.payload).len()`, the only
  observation of the structured payload the broker makes
  (serialization of a `serde_json::Value` cannot fail);
* `metaAuthToken` stands for
  `self.metadata.get("auth_token").and_then(|v| v.as_str())`, the only
  observation of the metadata the broker makes (`Wave::auth_token`). -/
structure Wave where
  schemaVersion : Nat
  id : Nat
  waveType : WaveType
  channel : Channel
  payloadLen : Nat
  payloadBytes : Option (List Nat)
  amplitude : Amplitude
  source : Option String
  timestamp : Int
  metaAuthToken : Option String
  phase : ℝ
  propagationCount : Nat

namespace Wave

/-- `Wave::propagate` (wave.rs lines 202-208): increment the hop count,
attenuate the amplitude by 0.95, advance the phase by π/4. -/
noncomputable def propagate (w : Wave) : Wave :=
  { w with
    propagationCount := w.propagationCount + 1
    amplitude := w.amplitude.attenuate (19 / 20)
    phase := w.phase + Real.pi / 4 }

/-- `Wave::is_valid_with_threshold` (wave.rs): amplitude strictly above the
threshold. -/
def isValidWithThreshold (w : Wave) (minAmplitude : ℚ) : Bool :=
  decide (minAmplitude < w.amplitude.val)

/-- `Wave::is_valid` (wave.rs lines 211-213). -/
def isValid (w : Wave) : Bool :=
  w.isValidWithThreshold defaultMinAmplitude

/-- The payload size computed by `Aether::emit` (aether.rs lines 156-162):
the byte payload's length when present, otherwise the serialized structured
payload's length. -/
def payloadSize (w : Wave) : Nat :=
  match w.payloadBytes with
  | some bs => bs.length
  | none => w.payloadLen

end Wave

/-! ## Broker (src/aether-core/src/aether.rs)

`Aether::emit` and `Aether::subscribe` are modelled on the local (in-process)
path, i.e. with `use_nats = false` and no persistence store attached: the
validation / authorization / short-circuit cascade of `emit` precedes the
transport branch and is identical on both paths.  The mutable broker state
touched by these operations is the channel registry (keys of the
`channels` map) and `stats.total_waves`.  `recvCount name` models the number
of live receivers of the broadcast channel for `name`:
`broadcast::Sender::send` succeeds if and only if at least one exists. -/

/-- The fields of `AetherConfig` (aether.rs lines 11-63) read by `emit`. -/
structure AetherConfig where
  channelBufferSize : Nat
  maxPropagation : Nat
  authToken : Option String
  allowedSources : List String
  maxPayloadBytes : Nat
  maxChannelLength : Nat
deriving DecidableEq, Repr

/-- The two error constructors `emit` can produce on the local path
(`AetherError` in lib.rs). -/
inductive AetherError
  | validationFailed (msg : String)
  | authorizationFailed (msg : String)
deriving DecidableEq, Repr

/-- `c.is_ascii_alphanumeric() || c == '.' || c == '_' || c == '-' || c == '*'`
(aether.rs line 482); `is_ascii_alphanumeric` is the three ASCII ranges
A-Z (65-90), a-z (97-122), 0-9 (48-57). -/
def isChannelChar (c : Char) : Bool :=
  (65 ≤ c.toNat && c.toNat ≤ 90) || (97 ≤ c.toNat && c.toNat ≤ 122) ||
  (48 ≤ c.toNat && c.toNat ≤ 57) || c == '.' || c == '_' || c == '-' || c == '*'

/-- `is_valid_channel_name` (aether.rs lines 477-483): non-empty, UTF-8 byte
length at most `maxLen`, and every character ASCII alphanumeric or one of
`.`, `_`, `-`, `*`. -/
def isValidChannelName (name : String) (maxLen : Nat) : Bool :=
  if name.data.isEmpty || (strBytes name).length > maxLen then false
  else name.data.all isChannelChar

/-- The broker state mutated by `emit`/`subscribe`: the registry keys and the
`total_waves` counter. -/
structure BrokerState where
  registry : List String
  totalWaves : Nat
deriving DecidableEq, Repr

/-- `HashMap::entry(..).or_insert_with(..)`: create the registry entry for
`name` if it is absent. -/
def BrokerState.ensureChannel (st : BrokerState) (name : String) : BrokerState :=
  if st.registry.contains name then st
  else { st with registry := st.registry ++ [name] }

/-- The observable outcome of one `Aether::emit` call. `dispatched` is the
propagated wave handed to `broadcast::Sender::send` (`none` when the call
errored or short-circuited before fan-out). -/
structure EmitOutput where
  result : Except AetherError Unit
  state : BrokerState
  dispatched : Option Wave

/-- Auth-token check of `emit` (aether.rs lines 171-181): with a configured
token, accept only a present and equal metadata token. -/
def authRejects (cfg : AetherConfig) (w : Wave) : Bool :=
  match cfg.authToken with
  | none => false
  | some expected => !(w.metaAuthToken == some expected)

/-- Source allow-list check of `emit` (aether.rs lines 183-193): with a
non-empty list, accept only a present and listed source. -/
def sourceRejects (cfg : AetherConfig) (w : Wave) : Bool :=
  if cfg.allowedSources.isEmpty then false
  else
    match w.source with
    | some s => !(cfg.allowedSources.contains s)
    | none => true

/-- `Aether::emit` (aether.rs lines 145-308) on the local path
(`use_nats = false`, no persistence store). -/
noncomputable def emit (cfg : AetherConfig) (recvCount : String → Nat)
    (st : BrokerState) (w : Wave) : EmitOutput :=
  if !(isValidChannelName w.channel.name cfg.maxChannelLength) then
    ⟨.error (.validationFailed ("invalid channel name: " ++ w.channel.name)), st, none⟩
  else if w.payloadSize > cfg.maxPayloadBytes then
    ⟨.error (.validationFailed ("payload too large: " ++ toString w.payloadSize ++ " bytes")),
      st, none⟩
  else if authRejects cfg w then
    ⟨.error (.authorizationFailed "missing or invalid auth token"), st, none⟩
  else if sourceRejects cfg w then
    ⟨.error (.authorizationFailed "source not allowed"), st, none⟩
  else if w.propagationCount ≥ cfg.maxPropagation then
    ⟨.ok (), st, none⟩
  else if !w.isValid then
    ⟨.ok (), st, none⟩
  else
    let w' := w.propagate
    let name := w'.channel.name
    let st' := st.ensureChannel name
    if recvCount name > 0 then
      -- send succeeded: update statistics
      ⟨.ok (), { st' with totalWaves := st'.totalWaves + 1 }, some w'⟩
    else
      -- send failed (no subscribers): warn and return ok, statistics untouched
      ⟨.ok (), st', some w'⟩

/-- `Aether::subscribe` (aether.rs lines 311-368) on the local path: look up
or create the registry entry and hand back a fresh per-subscriber receiver,
modelled by the channel name it reads.  There is no fallible step. -/
def subscribe (st : BrokerState) (ch : Channel) : BrokerState × String :=
  (st.ensureChannel ch.name, ch.name)

/-! ## Reliability (src/aether-core/src/reliability.rs)

Durations are modelled in nanoseconds as `Nat`; `Duration::MAX` is
`u64::MAX` seconds plus `999_999_999` nanoseconds.  `Instant`s are
nanosecond timestamps on a monotone clock. -/

def u32Max : Nat := 2 ^ 32 - 1

def durationMax : Nat := (2 ^ 64 - 1) * 1000000000 + 999999999

/-- `RetryPolicy` (reliability.rs lines 10-15). -/
structure RetryPolicy where
  maxRetries : Nat
  baseDelay : Nat
  maxDelay : Nat
deriving DecidableEq, Repr

/-- `2_u32.saturating_pow((attempt - 1) as u32)` (reliability.rs line 30):
the `usize → u32` cast truncates the exponent modulo `2 ^ 32`, then the
power saturates at `u32::MAX`. -/
def satPow2u32 (e : Nat) : Nat :=
  min (2 ^ (e % 2 ^ 32)) u32Max

/-- `RetryPolicy::backoff_delay` (reliability.rs lines 26-33). -/
def RetryPolicy.backoffDelay (p : RetryPolicy) (attempt : Nat) : Nat :=
  if attempt = 0 then 0
  else min (min (p.baseDelay * satPow2u32 (attempt - 1)) durationMax) p.maxDelay

/-- Outcome of one attempt of the retried operation, as seen through
`tokio::time::timeout`: a value, an error, or an elapsed timeout. -/
inductive AttemptOutcome (α : Type)
  | ok (v : α)
  | failed
  | timedOut
deriving DecidableEq, Repr

/-- The error `retry_with_timeout` returns when attempts are exhausted:
the last attempt's own error, or the distinct "timeout" error. -/
inductive RetryError
  | lastError
  | timeout
deriving DecidableEq, Repr

/-- The observable behaviour of one `retry_with_timeout` run: its return
value, how many times `f` was invoked, and the sequence of back-off delays
slept between attempts. -/
structure RetryTrace (α : Type) where
  result : Except RetryError α
  invocations : Nat
  sleeps : List Nat
deriving Repr

/-- The loop of `retry_with_timeout` (reliability.rs lines 122-144).
`attempt` is the loop counter; `gas = maxRetries - attempt`, so `gas = 0`
embeds the exit test `attempt >= policy.max_retries`.  The sleep of
`backoff_delay (attempt + 1)` is recorded unconditionally; the source skips
the `sleep` call when the delay is zero, which sleeps for the same total
time. -/
def retryAux (p : RetryPolicy) (f : Nat → AttemptOutcome α) :
    Nat → Nat → RetryTrace α
  | attempt, 0 =>
    -- `gas = 0` embeds the exit test: this is the final attempt
    match f attempt with
    | .ok v => ⟨.ok v, attempt + 1, []⟩
    | .failed => ⟨.error .lastError, attempt + 1, []⟩
    | .timedOut => ⟨.error .timeout, attempt + 1, []⟩
  | attempt, gas + 1 =>
    match f attempt with
    | .ok v => ⟨.ok v, attempt + 1, []⟩
    | .failed =>
      let rest := retryAux p f (attempt + 1) gas
      ⟨rest.result, rest.invocations, p.backoffDelay (attempt + 1) :: rest.sleeps⟩
    | .timedOut =>
      let rest := retryAux p f (attempt + 1) gas
      ⟨rest.result, rest.invocations, p.backoffDelay (attempt + 1) :: rest.sleeps⟩

/-- `retry_with_timeout` (reliability.rs lines 112-145), with the attempts'
outcomes supplied as a function of the attempt index. -/
def retryWithTimeout (p : RetryPolicy) (f : Nat → AttemptOutcome α) : RetryTrace α :=
  retryAux p f 0 p.maxRetries

/-- `CircuitState` (reliability.rs lines 44-49); `open` is a Lean keyword,
hence `opened`. -/
inductive CircuitState
  | closed (failures : Nat)
  | opened (openedAt : Nat)
  | halfOpen (successes : Nat)
deriving DecidableEq, Repr

/-- The configuration of `CircuitBreaker` (reliability.rs lines 36-42). -/
structure CircuitBreaker where
  failureThreshold : Nat
  openDuration : Nat
  halfOpenSuccesses : Nat
deriving DecidableEq, Repr

/-- `CircuitBreaker::new` (reliability.rs lines 52-59): both thresholds are
clamped up to at least 1. -/
def CircuitBreaker.new (failureThreshold openDuration halfOpenSuccesses : Nat) :
    CircuitBreaker :=
  ⟨max failureThreshold 1, openDuration, max halfOpenSuccesses 1⟩

/-- Outcome of one `CircuitBreaker::call`: rejected with the distinct
"circuit open" error without invoking the operation, or forwarded with the
operation's own success flag. -/
inductive CallOutcome
  | rejectedCircuitOpen
  | forwarded (ok : Bool)
deriving DecidableEq, Repr

/-- Second half of `CircuitBreaker::call` (reliability.rs lines 81-106):
record the forwarded call's result in the state. -/
def CircuitBreaker.afterCall (cb : CircuitBreaker) (s : CircuitState)
    (now : Nat) (ok : Bool) : CircuitState :=
  match s, ok with
  | .closed _, true => .closed 0
  | .closed failures, false =>
    if failures + 1 ≥ cb.failureThreshold then .opened now else .closed (failures + 1)
  | .halfOpen successes, true =>
    if successes + 1 ≥ cb.halfOpenSuccesses then .closed 0 else .halfOpen (successes + 1)
  | .halfOpen _, false => .opened now
  | .opened t, _ => .opened t

/-- `CircuitBreaker::call` (reliability.rs lines 61-109) as a state
transition: `now` is the monotone-clock reading (one call is atomic in the
source: the state mutex is held around each state access), `ok` is the
result the wrapped operation would produce if invoked.
`opened_at.elapsed() = now - openedAt`. -/
def CircuitBreaker.call (cb : CircuitBreaker) (s : CircuitState)
    (now : Nat) (ok : Bool) : CallOutcome × CircuitState :=
  match s with
  | .opened openedAt =>
    if now - openedAt < cb.openDuration then
      (.rejectedCircuitOpen, .opened openedAt)
    else
      (.forwarded ok, cb.afterCall (.halfOpen 0) now ok)
  | s' => (.forwarded ok, cb.afterCall s' now ok)

/-! ## Vibrator (src/aether-core/src/vibrator.rs)

`Vibrator::receive` polls every subscribed receiver round-robin with
`try_recv`; `Vibrator::receive_from` blocks on the receiver of one channel.
Each receiver's pending waves are modelled as a list (front = oldest). -/

/-- The `VibratorConfig` fields receive filtering reads (vibrator.rs):
the vibrator's own name and its noise floor. -/
structure VibratorConfig where
  name : String
  noiseFloor : ℚ
deriving DecidableEq, Repr

/-- The filter applied in `Vibrator::receive`/`receive_from` before a wave is
returned: drop waves whose source equals the vibrator's own name, and waves
whose amplitude is below the noise floor. -/
def acceptsWave (cfg : VibratorConfig) (w : Wave) : Bool :=
  !(w.source == some cfg.name) && !(decide (w.amplitude.val < cfg.noiseFloor))

/-- One sweep of the `for` loop in `Vibrator::receive` (vibrator.rs lines
201-234): `try_recv` at most one wave from each receiver in order; a wave
that fails the filter is consumed and dropped (`continue` moves to the next
receiver); the first accepted wave is returned. -/
def receiveSweep (cfg : VibratorConfig) :
    List (List Wave) → Option Wave × List (List Wave)
  | [] => (none, [])
  | [] :: qs => ((receiveSweep cfg qs).1, [] :: (receiveSweep cfg qs).2)
  | (w :: rest) :: qs =>
    if acceptsWave cfg w then (some w, rest :: qs)
    else ((receiveSweep cfg qs).1, rest :: (receiveSweep cfg qs).2)

/-- The outer `loop` of `Vibrator::receive`: sweep until a wave is accepted,
sleeping 10 ms between empty sweeps.  The source loops forever; `fuel`
bounds the number of sweeps observed. -/
def receiveLoop (cfg : VibratorConfig) :
    Nat → List (List Wave) → Option Wave
  | 0, _ => none
  | fuel + 1, qs =>
    match receiveSweep cfg qs with
    | (some w, _) => some w
    | (none, qs') => receiveLoop cfg fuel qs'

/-- `Vibrator::receive` (vibrator.rs lines 195-239): `none` immediately when
no channels are subscribed, otherwise poll. -/
def receive (cfg : VibratorConfig) (fuel : Nat) (queues : List (List Wave)) :
    Option Wave :=
  if queues.isEmpty then none
  else receiveLoop cfg fuel queues

/-- The inner `loop` of `Vibrator::receive_from`: `recv` repeatedly from one
receiver, dropping filtered waves, until an accepted wave or channel
closure (modelled by queue exhaustion). -/
def receiveFromQueue (cfg : VibratorConfig) : List Wave → Option Wave
  | [] => none
  | w :: rest => if acceptsWave cfg w then some w else receiveFromQueue cfg rest

/-- `Vibrator::receive_from` (vibrator.rs lines 242-264): scan the receiver
list for the first entry whose channel equals the argument and read from it;
`none` when no receiver matches. -/
def receiveFrom (cfg : VibratorConfig) (receivers : List (Channel × List Wave))
    (ch : Channel) : Option Wave :=
  match receivers.find? (fun p => p.1 == ch) with
  | some p => receiveFromQueue cfg p.2
  | none => none

/-! ## Spec-side predicates

The predicates below restate conditions in the words of the specification,
independently of the boolean tests the implementation runs; the theorems
relate the two. -/

/-- The permitted channel alphabet as the spec states it, `[A-Za-z0-9._*-]`,
via the code points of A-Z, a-z and 0-9. -/
def specChannelCharOk (c : Char) : Prop :=
  (65 ≤ c.toNat ∧ c.toNat ≤ 90) ∨ (97 ≤ c.toNat ∧ c.toNat ≤ 122) ∨
    (48 ≤ c.toNat ∧ c.toNat ≤ 57) ∨ c = '.' ∨ c = '_' ∨ c = '-' ∨ c = '*'

/-- Spec condition for the Validation rejection of a channel name: empty,
longer (in bytes) than the maximum, or containing a character outside the
permitted alphabet. -/
def nameRejectedSpec (name : String) (maxLen : Nat) : Prop :=
  name = "" ∨ maxLen < (strBytes name).length ∨ ∃ c ∈ name.data, ¬ specChannelCharOk c

/-- Spec condition for the auth-token Authorization rejection: a token is
configured and the wave's metadata token is absent or unequal. -/
def authRejectedSpec (cfg : AetherConfig) (w : Wave) : Prop :=
  cfg.authToken.isSome = true ∧ w.metaAuthToken ≠ cfg.authToken

/-- An optional source that is absent from the allow-list (a missing source
counts as absent). -/
def sourceAbsent (src : Option String) (allowed : List String) : Prop :=
  match src with
  | some s => s ∉ allowed
  | none => True

instance (src : Option String) (allowed : List String) :
    Decidable (sourceAbsent src allowed) :=
  match src with
  | some s => inferInstanceAs (Decidable (s ∉ allowed))
  | none => inferInstanceAs (Decidable True)

/-- Spec condition for the source Authorization rejection: the allow-list is
non-empty and the wave's source is absent from it. -/
def sourceRejectedSpec (cfg : AetherConfig) (w : Wave) : Prop :=
  cfg.allowedSources ≠ [] ∧ sourceAbsent w.source cfg.allowedSources

/-- Spec condition for the silent drop: exhausted hop budget or amplitude at
or below the validity threshold. -/
def silentDropSpec (cfg : AetherConfig) (w : Wave) : Prop :=
  cfg.maxPropagation ≤ w.propagationCount ∨ w.amplitude.val ≤ defaultMinAmplitude

/-- The matching rule exactly as the claim states it (note the strict
`P.segments.length < C.segments.length` in the tail-wildcard disjunct). -/
def matchesClaimedSpec (c p : Channel) : Prop :=
  p.name = "*" ∨
  (p.segments.getLast? = some "*" ∧ p.segments.length < c.segments.length ∧
    p.segments.dropLast <+: c.segments) ∨
  (c.segments.length = p.segments.length ∧
    ∀ sp ∈ c.segments.zip p.segments, sp.2 = "*" ∨ sp.1 = sp.2)

/-- The matching rule with the tail-wildcard disjunct weakened to mere
inequality of segment counts, which is what the source implements. -/
def matchesAmendedSpec (c p : Channel) : Prop :=
  p.name = "*" ∨
  (p.segments.getLast? = some "*" ∧ c.segments.length ≠ p.segments.length ∧
    p.segments.dropLast <+: c.segments) ∨
  (c.segments.length = p.segments.length ∧
    ∀ sp ∈ c.segments.zip p.segments, sp.2 = "*" ∨ sp.1 = sp.2)

instance (c : Char) : Decidable (specChannelCharOk c) :=
  inferInstanceAs (Decidable
    ((65 ≤ c.toNat ∧ c.toNat ≤ 90) ∨ (97 ≤ c.toNat ∧ c.toNat ≤ 122) ∨
      (48 ≤ c.toNat ∧ c.toNat ≤ 57) ∨ c = '.' ∨ c = '_' ∨ c = '-' ∨ c = '*'))

instance (name : String) (maxLen : Nat) : Decidable (nameRejectedSpec name maxLen) :=
  inferInstanceAs (Decidable
    (name = "" ∨ maxLen < (strBytes name).length ∨ ∃ c ∈ name.data, ¬ specChannelCharOk c))

instance (cfg : AetherConfig) (w : Wave) : Decidable (authRejectedSpec cfg w) :=
  inferInstanceAs (Decidable (cfg.authToken.isSome = true ∧ w.metaAuthToken ≠ cfg.authToken))

instance (cfg : AetherConfig) (w : Wave) : Decidable (sourceRejectedSpec cfg w) :=
  inferInstanceAs (Decidable (cfg.allowedSources ≠ [] ∧ sourceAbsent w.source cfg.allowedSources))

instance (cfg : AetherConfig) (w : Wave) : Decidable (silentDropSpec cfg w) :=
  inferInstanceAs (Decidable
    (cfg.maxPropagation ≤ w.propagationCount ∨ w.amplitude.val ≤ defaultMinAmplitude))

instance (c p : Channel) : Decidable (matchesClaimedSpec c p) :=
  inferInstanceAs (Decidable
    (p.name = "*" ∨
      (p.segments.getLast? = some "*" ∧ p.segments.length < c.segments.length ∧
        p.segments.dropLast <+: c.segments) ∨
      (c.segments.length = p.segments.length ∧
        ∀ sp ∈ c.segments.zip p.segments, sp.2 = "*" ∨ sp.1 = sp.2)))

instance (c p : Channel) : Decidable (matchesAmendedSpec c p) :=
  inferInstanceAs (Decidable
    (p.name = "*" ∨
      (p.segments.getLast? = some "*" ∧ c.segments.length ≠ p.segments.length ∧
        p.segments.dropLast <+: c.segments) ∨
      (c.segments.length = p.segments.length ∧
        ∀ sp ∈ c.segments.zip p.segments, sp.2 = "*" ∨ sp.1 = sp.2)))

/-- A sequence of `Amplitude` mutations, for stating the claimed [0, 1]
invariant over arbitrary operation sequences. -/
inductive AmpOp
  | attenuate (factor : ℚ)
  | amplify (factor : ℚ)
deriving DecidableEq, Repr

/-- Apply one `AmpOp`. -/
def Amplitude.applyOp (a : Amplitude) : AmpOp → Amplitude
  | .attenuate f => a.attenuate f
  | .amplify f => a.amplify f

/-- Run a sequence of `AmpOp`s from a starting amplitude. -/
def runAmpOps (a : Amplitude) (ops : List AmpOp) : Amplitude :=
  ops.foldl Amplitude.applyOp a

/-- An `AmpOp` whose `amplify` factor (if any) is nonnegative. -/
def AmpOp.factorNonneg : AmpOp → Prop
  | .attenuate _ => True
  | .amplify f => 0 ≤ f

instance : DecidablePred AmpOp.factorNonneg := fun op => by
  cases op <;> simp only [AmpOp.factorNonneg] <;> infer_instance

/-! ## Concrete sample data used by witnesses and counterexamples -/

/-- The `AetherConfig` defaults relevant to `emit` (aether.rs lines 65-87),
with no auth token and an empty allow-list. -/
def sampleConfig : AetherConfig :=
  { channelBufferSize := 1000, maxPropagation := 10, authToken := none
  , allowedSources := [], maxPayloadBytes := 1048576, maxChannelLength := 128 }

/-- A simple wave on channel "a" with amplitude 1 and no byte payload. -/
def sampleWave : Wave :=
  { schemaVersion := 1, id := 0, waveType := .event, channel := Channel.new "a"
  , payloadLen := 2, payloadBytes := none, amplitude := ⟨1⟩, source := none
  , timestamp := 0, metaAuthToken := none, phase := 0, propagationCount := 0 }

/-- `sampleWave` with amplitude 1/10, below a noise floor of 1/2. -/
def sampleWaveLow : Wave :=
  { sampleWave with amplitude := ⟨1/10⟩ }

/-- `sampleWave` with source "me", the receiving vibrator's own name. -/
def sampleWaveSelf : Wave :=
  { sampleWave with source := some "me" }

/-- A vibrator called "me" with noise floor 1/2. -/
def sampleVibrator : VibratorConfig := ⟨"me", 1/2⟩

/-- `sampleWave` on a channel name `emit` rejects (it contains a space). -/
def sampleWaveBadChannel : Wave :=
  { sampleWave with channel := Channel.new "bad name" }

/-! ## Helper lemmas -/

theorem qMin_eq_min (a b : ℚ) : qMin a b = min a b := by
  unfold qMin
  split_ifs with h
  · exact (min_eq_left h).symm
  · exact (min_eq_right (le_of_not_le h)).symm

theorem qMax_eq_max (a b : ℚ) : qMax a b = max a b := by
  unfold qMax
  split_ifs with h
  · exact (max_eq_right h).symm
  · exact (max_eq_left (le_of_not_le h)).symm

theorem clampQ_le (v lo hi : ℚ) : clampQ v lo hi ≤ hi := by
  rw [clampQ, qMin_eq_min]
  exact min_le_right _ _

theorem le_clampQ (v lo hi : ℚ) (h : lo ≤ hi) : lo ≤ clampQ v lo hi := by
  rw [clampQ, qMin_eq_min, qMax_eq_max]
  exact le_min (le_max_right _ _) h

theorem Amplitude.attenuate_val (a : Amplitude) (f : ℚ) :
    (a.attenuate f).val = a.val * clampQ f 0 1 := rfl

theorem Amplitude.amplify_val (a : Amplitude) (f : ℚ) :
    (a.amplify f).val = min (a.val * f) 1 := by
  rw [Amplitude.amplify, qMin_eq_min]

/-- Preservation of the unit interval by one `AmpOp` whose amplify factor is
nonnegative. -/
theorem Amplitude.applyOp_mem_unit (a : Amplitude) (op : AmpOp)
    (hop : op.factorNonneg) (h0 : 0 ≤ a.val) (h1 : a.val ≤ 1) :
    0 ≤ (a.applyOp op).val ∧ (a.applyOp op).val ≤ 1 := by
  cases op with
  | attenuate f =>
    have hc0 : 0 ≤ clampQ f 0 1 := le_clampQ f 0 1 zero_le_one
    have hc1 : clampQ f 0 1 ≤ 1 := clampQ_le f 0 1
    refine ⟨mul_nonneg h0 hc0, ?_⟩
    calc a.val * clampQ f 0 1 ≤ 1 * 1 := by
          exact mul_le_mul h1 hc1 hc0 zero_le_one
      _ = 1 := one_mul 1
  | amplify f =>
    simp only [Amplitude.applyOp, Amplitude.amplify_val]
    exact ⟨le_min (mul_nonneg h0 hop) zero_le_one, min_le_right _ _⟩

/-- Preservation of the unit interval by a sequence of `AmpOp`s. -/
theorem runAmpOps_mem_unit (ops : List AmpOp) (a : Amplitude)
    (h : ∀ op ∈ ops, op.factorNonneg) (h0 : 0 ≤ a.val) (h1 : a.val ≤ 1) :
    0 ≤ (runAmpOps a ops).val ∧ (runAmpOps a ops).val ≤ 1 := by
  induction ops generalizing a with
  | nil => exact ⟨h0, h1⟩
  | cons op rest ih =>
    have hstep := Amplitude.applyOp_mem_unit a op (h op (List.mem_cons_self op rest)) h0 h1
    exact ih (a.applyOp op) (fun o ho => h o (List.mem_cons_of_mem op ho)) hstep.1 hstep.2

/-! ## C5 — amplitude range invariant (corrected)

The claim asserts that for arbitrary real factor arguments the stored value
stays in [0, 1].  `Amplitude::amplify` only caps the product above at 1
and never clamps below, so a negative factor drives the value negative;
the invariant holds once every amplify factor is nonnegative. -/

/-- C5 (counterexample): starting from `Amplitude::new(1.0)`, the single
operation `amplify(-1.0)` leaves the stored value at -1, outside [0, 1],
refuting the claimed invariant for arbitrary real factors. -/
theorem amplify_negative_escapes_unit_interval :
    (runAmpOps (Amplitude.new 1) [AmpOp.amplify (-1)]).val = -1 ∧
    ¬ (0 ≤ (runAmpOps (Amplitude.new 1) [AmpOp.amplify (-1)]).val ∧
        (runAmpOps (Amplitude.new 1) [AmpOp.amplify (-1)]).val ≤ 1) := by
  decide

/-- C5 (amended): for every starting value and every sequence of
`attenuate`/`amplify` operations in which each amplify factor is
nonnegative, the stored amplitude stays inside [0, 1]: `new` clamps its
argument, `attenuate` multiplies by `clamp(f, 0, 1)`, and `amplify` with a
nonnegative factor multiplies and caps at 1. -/
theorem amplitude_ops_stay_in_unit_interval (v : ℚ) (ops : List AmpOp)
    (h : ∀ op ∈ ops, op.factorNonneg) :
    0 ≤ (runAmpOps (Amplitude.new v) ops).val ∧
      (runAmpOps (Amplitude.new v) ops).val ≤ 1 :=
  runAmpOps_mem_unit ops (Amplitude.new v) h
    (le_clampQ v 0 1 zero_le_one) (clampQ_le v 0 1)

/-- C5 (witness): the amended invariant evaluated on the concrete run
`new(3/2); attenuate(2); amplify(1/2)`. -/
theorem amplitude_ops_stay_in_unit_interval_witness :
    (∀ op ∈ [AmpOp.attenuate 2, AmpOp.amplify (1/2)], op.factorNonneg) ∧
    (0 ≤ (runAmpOps (Amplitude.new (3/2)) [AmpOp.attenuate 2, AmpOp.amplify (1/2)]).val ∧
      (runAmpOps (Amplitude.new (3/2)) [AmpOp.attenuate 2, AmpOp.amplify (1/2)]).val ≤ 1) :=
  ⟨by decide, amplitude_ops_stay_in_unit_interval (3/2) _ (by decide)⟩

theorem isChannelChar_iff (c : Char) :
    isChannelChar c = true ↔ specChannelCharOk c := by
  unfold isChannelChar specChannelCharOk
  simp only [Bool.or_eq_true, Bool.and_eq_true, decide_eq_true_eq, beq_iff_eq]
  tauto

theorem isValidChannelName_false_iff (name : String) (maxLen : Nat) :
    isValidChannelName name maxLen = false ↔ nameRejectedSpec name maxLen := by
  unfold isValidChannelName nameRejectedSpec
  split_ifs with h
  · simp only [List.isEmpty_iff, Bool.or_eq_true, decide_eq_true_eq] at h
    have : name = "" ∨ maxLen < (strBytes name).length := by
      rcases h with h | h
      · exact Or.inl (by cases name; simp_all)
      · exact Or.inr h
    tauto
  · simp only [List.isEmpty_iff, Bool.or_eq_true, decide_eq_true_eq, not_or,
      not_lt] at h
    have hne : ¬ name = "" := fun he => h.1 (by simp [he])
    have hlen : ¬ maxLen < (strBytes name).length := not_lt.mpr h.2
    simp only [hne, hlen, false_or]
    rw [List.all_eq_false]
    constructor
    · rintro ⟨c, hc, hcc⟩
      exact ⟨c, hc, fun hs => hcc ((isChannelChar_iff c).mpr hs)⟩
    · rintro ⟨c, hc, hcc⟩
      exact ⟨c, hc, fun hs => hcc ((isChannelChar_iff c).mp hs)⟩

theorem authRejects_iff (cfg : AetherConfig) (w : Wave) :
    authRejects cfg w = true ↔ authRejectedSpec cfg w := by
  unfold authRejects authRejectedSpec
  cases h : cfg.authToken with
  | none => simp [h]
  | some e => simp

theorem sourceRejects_iff (cfg : AetherConfig) (w : Wave) :
    sourceRejects cfg w = true ↔ sourceRejectedSpec cfg w := by
  unfold sourceRejects sourceRejectedSpec sourceAbsent
  cases hs : w.source with
  | none => simp [List.isEmpty_iff]
  | some s => simp [List.isEmpty_iff, List.elem_iff]

theorem isValid_false_iff (w : Wave) :
    w.isValid = false ↔ w.amplitude.val ≤ defaultMinAmplitude := by
  unfold Wave.isValid Wave.isValidWithThreshold
  simp [not_lt]

theorem propagate_channel (w : Wave) : w.propagate.channel = w.channel := rfl

theorem ensureChannel_totalWaves (st : BrokerState) (name : String) :
    (st.ensureChannel name).totalWaves = st.totalWaves := by
  unfold BrokerState.ensureChannel
  split_ifs <;> rfl

theorem ensureChannel_contains (st : BrokerState) (name : String) :
    (st.ensureChannel name).registry.contains name = true := by
  unfold BrokerState.ensureChannel
  split_ifs with h
  · exact h
  · simp

/-- Structural case analysis of one `emit` call: it errors (leaving the
state untouched), short-circuits ok without dispatch, or dispatches, with
the statistics bumped exactly when a receiver was listening. -/
theorem emit_cases (cfg : AetherConfig) (recvCount : String → Nat)
    (st : BrokerState) (w : Wave) :
    (∃ e, emit cfg recvCount st w = ⟨.error e, st, none⟩) ∨
    emit cfg recvCount st w = ⟨.ok (), st, none⟩ ∨
    (0 < recvCount w.channel.name ∧
      emit cfg recvCount st w =
        ⟨.ok (), ⟨(st.ensureChannel w.channel.name).registry,
          (st.ensureChannel w.channel.name).totalWaves + 1⟩, some w.propagate⟩) ∨
    (recvCount w.channel.name = 0 ∧
      emit cfg recvCount st w =
        ⟨.ok (), st.ensureChannel w.channel.name, some w.propagate⟩) := by
  unfold emit
  split_ifs with h1 h2 h3 h4 h5 h6
  · exact Or.inl ⟨_, rfl⟩
  · exact Or.inl ⟨_, rfl⟩
  · exact Or.inl ⟨_, rfl⟩
  · exact Or.inl ⟨_, rfl⟩
  · exact Or.inr (Or.inl rfl)
  · exact Or.inr (Or.inl rfl)
  · dsimp only
    split_ifs with h7
    · exact Or.inr (Or.inr (Or.inl ⟨by simpa [propagate_channel] using h7, rfl⟩))
    · refine Or.inr (Or.inr (Or.inr ⟨?_, rfl⟩))
      rw [propagate_channel] at h7
      omega

/-! ## C1 — the emit check cascade (confirmed)

Each conjunct states one stage of `Aether::emit` in the order the source
applies them, with the triggering condition phrased as the claim states it
(via the spec-side predicates) rather than via the implementation's boolean
tests. -/

/-- C1: `emit` applies its checks in order — Validation on the channel name,
Validation on the payload size, Authorization on the auth token,
Authorization on the source allow-list, then the silent-drop short-circuits
(hop budget exhausted or amplitude at/below the 0.01 threshold) which return
ok without dispatching; only when all pass is the wave propagated and
dispatched. -/
theorem emit_checks_in_order (cfg : AetherConfig) (recvCount : String → Nat)
    (st : BrokerState) (w : Wave) :
    (nameRejectedSpec w.channel.name cfg.maxChannelLength →
      emit cfg recvCount st w =
        ⟨.error (.validationFailed ("invalid channel name: " ++ w.channel.name)),
          st, none⟩) ∧
    (¬ nameRejectedSpec w.channel.name cfg.maxChannelLength →
      cfg.maxPayloadBytes < w.payloadSize →
      emit cfg recvCount st w =
        ⟨.error (.validationFailed
            ("payload too large: " ++ toString w.payloadSize ++ " bytes")),
          st, none⟩) ∧
    (¬ nameRejectedSpec w.channel.name cfg.maxChannelLength →
      w.payloadSize ≤ cfg.maxPayloadBytes →
      authRejectedSpec cfg w →
      emit cfg recvCount st w =
        ⟨.error (.authorizationFailed "missing or invalid auth token"), st, none⟩) ∧
    (¬ nameRejectedSpec w.channel.name cfg.maxChannelLength →
      w.payloadSize ≤ cfg.maxPayloadBytes →
      ¬ authRejectedSpec cfg w →
      sourceRejectedSpec cfg w →
      emit cfg recvCount st w =
        ⟨.error (.authorizationFailed "source not allowed"), st, none⟩) ∧
    (¬ nameRejectedSpec w.channel.name cfg.maxChannelLength →
      w.payloadSize ≤ cfg.maxPayloadBytes →
      ¬ authRejectedSpec cfg w →
      ¬ sourceRejectedSpec cfg w →
      silentDropSpec cfg w →
      emit cfg recvCount st w = ⟨.ok (), st, none⟩) ∧
    (¬ nameRejectedSpec w.channel.name cfg.maxChannelLength →
      w.payloadSize ≤ cfg.maxPayloadBytes →
      ¬ authRejectedSpec cfg w →
      ¬ sourceRejectedSpec cfg w →
      ¬ silentDropSpec cfg w →
      (emit cfg recvCount st w).result = .ok () ∧
      (emit cfg recvCount st w).dispatched = some w.propagate) := by
  refine ⟨?_, ?_, ?_, ?_, ?_, ?_⟩
  · intro hname
    have hb : isValidChannelName w.channel.name cfg.maxChannelLength = false :=
      (isValidChannelName_false_iff _ _).mpr hname
    simp [emit, hb]
  · intro hname hsize
    have hb : isValidChannelName w.channel.name cfg.maxChannelLength = true := by
      cases hv : isValidChannelName w.channel.name cfg.maxChannelLength
      · exact absurd ((isValidChannelName_false_iff _ _).mp hv) hname
      · rfl
    simp [emit, hb, hsize]
  · intro hname hsize hauth
    have hb : isValidChannelName w.channel.name cfg.maxChannelLength = true := by
      cases hv : isValidChannelName w.channel.name cfg.maxChannelLength
      · exact absurd ((isValidChannelName_false_iff _ _).mp hv) hname
      · rfl
    have ha : authRejects cfg w = true := (authRejects_iff cfg w).mpr hauth
    simp [emit, hb, not_lt.mpr hsize, ha]
  · intro hname hsize hauth hsrc
    have hb : isValidChannelName w.channel.name cfg.maxChannelLength = true := by
      cases hv : isValidChannelName w.channel.name cfg.maxChannelLength
      · exact absurd ((isValidChannelName_false_iff _ _).mp hv) hname
      · rfl
    have ha : authRejects cfg w = false := by
      cases hv : authRejects cfg w
      · rfl
      · exact absurd ((authRejects_iff cfg w).mp hv) hauth
    have hs : sourceRejects cfg w = true := (sourceRejects_iff cfg w).mpr hsrc
    simp [emit, hb, not_lt.mpr hsize, ha, hs]
  · intro hname hsize hauth hsrc hdrop
    have hb : isValidChannelName w.channel.name cfg.maxChannelLength = true := by
      cases hv : isValidChannelName w.channel.name cfg.maxChannelLength
      · exact absurd ((isValidChannelName_false_iff _ _).mp hv) hname
      · rfl
    have ha : authRejects cfg w = false := by
      cases hv : authRejects cfg w
      · rfl
      · exact absurd ((authRejects_iff cfg w).mp hv) hauth
    have hs : sourceRejects cfg w = false := by
      cases hv : sourceRejects cfg w
      · rfl
      · exact absurd ((sourceRejects_iff cfg w).mp hv) hsrc
    unfold silentDropSpec at hdrop
    rcases hdrop with hprop | hamp
    · simp [emit, hb, not_lt.mpr hsize, ha, hs, hprop]
    · have hv : w.isValid = false := (isValid_false_iff w).mpr hamp
      by_cases hprop : cfg.maxPropagation ≤ w.propagationCount
      · simp [emit, hb, not_lt.mpr hsize, ha, hs, hprop]
      · simp [emit, hb, not_lt.mpr hsize, ha, hs, hprop, hv]
  · intro hname hsize hauth hsrc hdrop
    have hb : isValidChannelName w.channel.name cfg.maxChannelLength = true := by
      cases hv : isValidChannelName w.channel.name cfg.maxChannelLength
      · exact absurd ((isValidChannelName_false_iff _ _).mp hv) hname
      · rfl
    have ha : authRejects cfg w = false := by
      cases hv : authRejects cfg w
      · rfl
      · exact absurd ((authRejects_iff cfg w).mp hv) hauth
    have hs : sourceRejects cfg w = false := by
      cases hv : sourceRejects cfg w
      · rfl
      · exact absurd ((sourceRejects_iff cfg w).mp hv) hsrc
    unfold silentDropSpec at hdrop
    rw [not_or] at hdrop
    have hprop : ¬ cfg.maxPropagation ≤ w.propagationCount := hdrop.1
    have hv : w.isValid = true := by
      cases hvv : w.isValid
      · exact absurd ((isValid_false_iff w).mp hvv) hdrop.2
      · rfl
    by_cases hr : recvCount w.propagate.channel.name > 0 <;>
      simp [emit, hb, not_lt.mpr hsize, ha, hs, hprop, hv, hr]

/-- C1 (witness): the silent-drop stage evaluated concretely — `sampleWave`
with its hop budget already exhausted (propagation count 10 with
`max_propagation` 10) is accepted by every check and dropped without
dispatch. -/
theorem emit_checks_in_order_witness :
    (¬ nameRejectedSpec ({ sampleWave with propagationCount := 10 }).channel.name
        sampleConfig.maxChannelLength ∧
      ({ sampleWave with propagationCount := 10 }).payloadSize ≤ sampleConfig.maxPayloadBytes ∧
      ¬ authRejectedSpec sampleConfig { sampleWave with propagationCount := 10 } ∧
      ¬ sourceRejectedSpec sampleConfig { sampleWave with propagationCount := 10 } ∧
      silentDropSpec sampleConfig { sampleWave with propagationCount := 10 }) ∧
    emit sampleConfig (fun _ => 1) ⟨[], 0⟩ { sampleWave with propagationCount := 10 } =
      ⟨.ok (), ⟨[], 0⟩, none⟩ :=
  ⟨⟨by decide, by decide, by decide, by decide, by decide⟩,
    (emit_checks_in_order sampleConfig (fun _ => 1) ⟨[], 0⟩
        { sampleWave with propagationCount := 10 }).2.2.2.2.1
      (by decide) (by decide) (by decide) (by decide) (by decide)⟩

/-! ## C3 — total_waves accounting (corrected)

The claim says `total_waves` increases by 1 whenever emit dispatches, even
when the push into the broadcast queue fails for lack of subscribers.  In
the source the increment sits inside the `Ok(receiver_count)` arm of
`sender.send`: a failed push logs a warning and returns ok WITHOUT touching
the statistics. -/

/-- C3 (counterexample): emitting a valid wave with zero subscribers returns
ok and dispatches, but `total_waves` stays 0 instead of rising to 1. -/
theorem emit_no_subscriber_total_waves_counterexample :
    (emit sampleConfig (fun _ => 0) ⟨[], 0⟩ sampleWave).result = .ok () ∧
    (emit sampleConfig (fun _ => 0) ⟨[], 0⟩ sampleWave).dispatched =
      some sampleWave.propagate ∧
    (emit sampleConfig (fun _ => 0) ⟨[], 0⟩ sampleWave).state.totalWaves = 0 :=
  ⟨rfl, rfl, rfl⟩

/-- C3 (amended): a dispatching emit always returns ok, and `total_waves`
increases by exactly 1 precisely when the wave was dispatched AND at least
one subscriber was listening (the push succeeded); in every other case —
push failure, short-circuit, or error — it is unchanged. -/
theorem emit_total_waves_amended (cfg : AetherConfig) (recvCount : String → Nat)
    (st : BrokerState) (w : Wave) :
    ((emit cfg recvCount st w).dispatched.isSome = true →
      (emit cfg recvCount st w).result = .ok ()) ∧
    ((emit cfg recvCount st w).dispatched.isSome = true →
      0 < recvCount w.channel.name →
      (emit cfg recvCount st w).state.totalWaves = st.totalWaves + 1) ∧
    ((emit cfg recvCount st w).dispatched.isSome = true →
      recvCount w.channel.name = 0 →
      (emit cfg recvCount st w).state.totalWaves = st.totalWaves) ∧
    ((emit cfg recvCount st w).dispatched.isSome = false →
      (emit cfg recvCount st w).state.totalWaves = st.totalWaves) := by
  rcases emit_cases cfg recvCount st w with ⟨e, he⟩ | he | ⟨hp, he⟩ | ⟨hz, he⟩
  · rw [he]; exact ⟨by simp, by simp, by simp, fun _ => rfl⟩
  · rw [he]; exact ⟨by simp, by simp, by simp, fun _ => rfl⟩
  · rw [he]
    refine ⟨fun _ => rfl, fun _ _ => ?_, fun _ h0 => ?_, by simp⟩
    · simp [ensureChannel_totalWaves]
    · omega
  · rw [he]
    refine ⟨fun _ => rfl, fun _ hpos => ?_, fun _ _ => ?_, by simp⟩
    · omega
    · simp [ensureChannel_totalWaves]

/-- C3 (witness): the amended statement evaluated with one subscriber
listening: the push succeeds and `total_waves` rises from 0 to 1. -/
theorem emit_total_waves_amended_witness :
    (emit sampleConfig (fun _ => 1) ⟨[], 0⟩ sampleWave).dispatched.isSome = true ∧
    (emit sampleConfig (fun _ => 1) ⟨[], 0⟩ sampleWave).result = .ok () ∧
    (emit sampleConfig (fun _ => 1) ⟨[], 0⟩ sampleWave).state.totalWaves = 0 + 1 :=
  ⟨rfl,
    (emit_total_waves_amended sampleConfig (fun _ => 1) ⟨[], 0⟩ sampleWave).1 rfl,
    (emit_total_waves_amended sampleConfig (fun _ => 1) ⟨[], 0⟩ sampleWave).2.1 rfl
      (by decide)⟩

/-! ## C10 — subscribe performs no validation (confirmed)

`Aether::subscribe` returns `broadcast::Receiver<Wave>` (not `Result`): it
cannot fail, and it runs none of emit's channel-name checks — the model
`subscribe` is a total function.  The same name that emit rejects still gets
its registry entry and a usable receive handle. -/

/-- C10: for every channel, `subscribe` creates (or finds) the registry
entry and returns a receive handle for exactly that name; and whenever the
name fails `emit`'s validation, `emit` on that channel still returns
ValidationFailed while `subscribe` succeeded all the same. -/
theorem subscribe_accepts_unvalidated_names (cfg : AetherConfig)
    (st : BrokerState) (ch : Channel) :
    (subscribe st ch).1.registry.contains ch.name = true ∧
    (subscribe st ch).2 = ch.name ∧
    (isValidChannelName ch.name cfg.maxChannelLength = false →
      ∀ (recvCount : String → Nat) (st' : BrokerState) (w : Wave), w.channel = ch →
        emit cfg recvCount st' w =
          ⟨.error (.validationFailed ("invalid channel name: " ++ ch.name)),
            st', none⟩) := by
  refine ⟨ensureChannel_contains st ch.name, rfl, ?_⟩
  intro hb recvCount st' w hw
  simp [emit, hw, hb]

/-- C10 (witness): subscribing to the invalid name "bad name" (rejected by
`emit` for its space) still creates the registry entry, while `emit` on it
fails validation. -/
theorem subscribe_accepts_unvalidated_names_witness :
    (subscribe ⟨[], 0⟩ (Channel.new "bad name")).1.registry.contains "bad name" = true ∧
    isValidChannelName "bad name" sampleConfig.maxChannelLength = false ∧
    emit sampleConfig (fun _ => 0) ⟨[], 0⟩ sampleWaveBadChannel =
      ⟨.error (.validationFailed "invalid channel name: bad name"), ⟨[], 0⟩, none⟩ :=
  ⟨(subscribe_accepts_unvalidated_names sampleConfig ⟨[], 0⟩ (Channel.new "bad name")).1,
    by decide,
    (subscribe_accepts_unvalidated_names sampleConfig ⟨[], 0⟩
        (Channel.new "bad name")).2.2 (by decide) (fun _ => 0) ⟨[], 0⟩
      sampleWaveBadChannel rfl⟩

/-! ## C4 — channel matching (corrected)

The claim requires the tail-wildcard pattern to have strictly fewer segments
than the target; the source only requires the segment counts to differ and
the pattern's leading segments to be a prefix of the target's.  For target
"a" and pattern "a.*" the source matches (the prefix ["a"] equals the whole
target) while the claimed rule does not. -/

/-- C4 (counterexample): `Channel::matches` holds for target "a" against
pattern "a.*", but the claimed rule (which requires the pattern to have
fewer segments than the target) does not. -/
theorem matchesPattern_claim_counterexample :
    (Channel.new "a").matchesPattern (Channel.new "a.*") = true ∧
    ¬ matchesClaimedSpec (Channel.new "a") (Channel.new "a.*") := by
  decide

/-- C4 (amended): `Channel::matches` returns true exactly when the pattern
is "*", or the pattern ends in "*" with a segment count different from the
target's and its leading segments are a prefix of the target's segments, or
the segment counts are equal and each pair of corresponding segments is
equal or the pattern segment is "*". -/
theorem matchesPattern_iff_amended (c p : Channel) :
    c.matchesPattern p = true ↔ matchesAmendedSpec c p := by
  unfold Channel.matchesPattern matchesAmendedSpec
  by_cases h1 : p.name = "*"
  · simp [h1]
  · rw [if_neg (by simpa using h1)]
    by_cases h2 : c.segments.length = p.segments.length
    · rw [if_neg (by simpa using h2)]
      simp only [List.all_eq_true, Bool.or_eq_true, beq_iff_eq, h1, h2,
        false_or, ne_eq, not_true_eq_false, false_and, and_false, true_and]
    · rw [if_pos (by simpa using h2)]
      by_cases h3 : p.segments.getLast? = some "*"
      · rw [if_pos (by simpa using h3)]
        rw [List.isPrefixOf_iff_prefix]
        simp [h1, h2, h3]
      · rw [if_neg (by simpa using h3)]
        simp [h1, h2, h3]

/-! ## C8 — hop index derivation (corrected)

The seed fold is wrapping 64-bit arithmetic, as the claim says; but the
addition `slot.wrapping_add(seed)` also wraps modulo 2^64 before the final
`mod max(n,1)`, while the claim's formula adds exactly.  With a modulus that
does not divide 2^64 the two differ on concrete inputs. -/

/-- Per-step modular reduction of the seed fold equals one final reduction. -/
theorem foldl_seed_mod (l : List Nat) (acc : Nat) :
    l.foldl (fun a b => (a * 131 + b) % 2 ^ 64) (acc % 2 ^ 64)
      = l.foldl (fun a b => a * 131 + b) acc % 2 ^ 64 := by
  induction l generalizing acc with
  | nil => simp [Nat.mod_mod_of_dvd]
  | cons b l ih =>
    simp only [List.foldl_cons]
    rw [show (acc % 2 ^ 64 * 131 + b) % 2 ^ 64 = (acc * 131 + b) % 2 ^ 64 from
      ((Nat.mod_modEq acc (2 ^ 64)).mul_right 131).add_right b, ← ih]

/-- The seed is the plain fold of the name's bytes, reduced once mod 2^64. -/
theorem hopSeed_eq_fold_mod (name : String) :
    (Channel.new name).hopSeed
      = (strBytes name).foldl (fun acc b => acc * 131 + b) 0 % 2 ^ 64 := by
  have h := foldl_seed_mod (strBytes name) 0
  simpa [Channel.hopSeed, Channel.new] using h

/-- C8 (counterexample): for channel "a" (seed 97), timestamp `2^64 - 1`
(the largest u64), hop count 3 and interval 1, the source computes hop index
0 — `slot.wrapping_add(seed)` wraps to 96, and 96 mod 3 = 0 — while the
claimed formula `(⌊t/max(i,1)⌋ + seed) mod max(n,1)` yields 1. -/
theorem hop_index_claim_counterexample :
    (Channel.new "a").hopIndexAtMs (2 ^ 64 - 1) 3 1 = 0 ∧
    ((2 ^ 64 - 1) / max 1 1 + (Channel.new "a").hopSeed) % max 3 1 = 1 := by
  decide

/-- C8 (amended): `hop_index_at_ms(t, n, i)` equals
`((⌊t / max(i,1)⌋ + seed(name)) mod 2^64) mod max(n,1)` where `seed(name)`
folds the name's bytes as `acc = acc * 131 + b` (wrapping 64-bit, i.e. the
plain fold reduced mod 2^64); the result lies below `max(n,1)`; and
`hop_at_ms` is the hop channel of that deterministically computed index. -/
theorem hop_index_at_ms_amended (name : String) (t n i : Nat) :
    (Channel.new name).hopIndexAtMs t n i
      = (t / max i 1 + (strBytes name).foldl (fun acc b => acc * 131 + b) 0)
          % 2 ^ 64 % max n 1 ∧
    (Channel.new name).hopIndexAtMs t n i < max n 1 ∧
    (Channel.new name).hopAtMs t n i
      = (Channel.new name).hop ((Channel.new name).hopIndexAtMs t n i) n := by
  refine ⟨?_, ?_, rfl⟩
  · rw [Channel.hopIndexAtMs, hopSeed_eq_fold_mod]
    exact congrArg (· % max n 1)
      ((Nat.mod_modEq ((strBytes name).foldl (fun acc b => acc * 131 + b) 0)
        (2 ^ 64)).add_left (t / max i 1))
  · exact Nat.mod_lt _ (Nat.lt_of_lt_of_le Nat.zero_lt_one (Nat.le_max_right n 1))

/-! ## C2 — propagate (confirmed) -/

/-- C2: after `propagate()` the hop count is exactly one greater, the
amplitude is the old amplitude times 0.95 and (from a valid starting
amplitude in [0, 1]) stays in [0, 1], the phase grows by π/4, and every
other field of the wave is unchanged. -/
theorem propagate_spec (w : Wave)
    (h0 : 0 ≤ w.amplitude.val) (h1 : w.amplitude.val ≤ 1) :
    w.propagate.propagationCount = w.propagationCount + 1 ∧
    w.propagate.amplitude.val = w.amplitude.val * (19/20) ∧
    (0 ≤ w.propagate.amplitude.val ∧ w.propagate.amplitude.val ≤ 1) ∧
    w.propagate.phase = w.phase + Real.pi / 4 ∧
    w.propagate.schemaVersion = w.schemaVersion ∧
    w.propagate.id = w.id ∧
    w.propagate.waveType = w.waveType ∧
    w.propagate.channel = w.channel ∧
    w.propagate.payloadLen = w.payloadLen ∧
    w.propagate.payloadBytes = w.payloadBytes ∧
    w.propagate.source = w.source ∧
    w.propagate.timestamp = w.timestamp ∧
    w.propagate.metaAuthToken = w.metaAuthToken := by
  have hc : clampQ (19/20) 0 1 = 19/20 := by decide
  have hval : w.propagate.amplitude.val = w.amplitude.val * (19/20) := by
    show (w.amplitude.attenuate (19/20)).val = w.amplitude.val * (19/20)
    rw [Amplitude.attenuate_val, hc]
  refine ⟨rfl, hval, ⟨?_, ?_⟩, rfl, rfl, rfl, rfl, rfl, rfl, rfl, rfl, rfl, rfl⟩
  · rw [hval]; positivity
  · rw [hval]; nlinarith

/-- C2 (witness): `propagate` evaluated on the concrete `sampleWave`
(amplitude 1, hop count 0). -/
theorem propagate_spec_witness :
    (0 ≤ sampleWave.amplitude.val ∧ sampleWave.amplitude.val ≤ 1) ∧
    sampleWave.propagate.propagationCount = sampleWave.propagationCount + 1 ∧
    sampleWave.propagate.amplitude.val = sampleWave.amplitude.val * (19/20) :=
  ⟨⟨by decide, by decide⟩,
    (propagate_spec sampleWave (by decide) (by decide)).1,
    (propagate_spec sampleWave (by decide) (by decide)).2.1⟩

/-! ## C6 — circuit breaker state machine (confirmed) -/

/-- C6: `CircuitBreaker::call` behaves as the claimed state machine.
In Closed, success resets the failure count and failure increments it,
opening (with `opened_at = now`) when the count reaches the threshold; in
Open the call is rejected with the distinct circuit-open error until
`now - opened_at ≥ open_duration`, at which point the state becomes
HalfOpen with zero successes and the call is forwarded (its own result then
being recorded against the HalfOpen state); in HalfOpen each success
increments the count, closing at `half_open_successes`, and any failure
reopens with `opened_at = now`. -/
theorem circuit_breaker_call_spec (cb : CircuitBreaker) (failures successes t now : Nat)
    (ok : Bool) :
    cb.call (.closed failures) now true = (.forwarded true, .closed 0) ∧
    cb.call (.closed failures) now false =
      (.forwarded false,
        if cb.failureThreshold ≤ failures + 1 then .opened now
        else .closed (failures + 1)) ∧
    (now - t < cb.openDuration →
      cb.call (.opened t) now ok = (.rejectedCircuitOpen, .opened t)) ∧
    (cb.openDuration ≤ now - t →
      cb.call (.opened t) now ok =
        (.forwarded ok,
          if ok then
            (if cb.halfOpenSuccesses ≤ 1 then .closed 0 else .halfOpen 1)
          else .opened now)) ∧
    cb.call (.halfOpen successes) now true =
      (.forwarded true,
        if cb.halfOpenSuccesses ≤ successes + 1 then .closed 0
        else .halfOpen (successes + 1)) ∧
    cb.call (.halfOpen successes) now false = (.forwarded false, .opened now) := by
  refine ⟨rfl, rfl, ?_, ?_, rfl, rfl⟩
  · intro h
    unfold CircuitBreaker.call
    dsimp only
    rw [if_pos h]
  · intro h
    unfold CircuitBreaker.call
    dsimp only
    rw [if_neg (not_lt.mpr h)]
    cases ok with
    | true => simp [CircuitBreaker.afterCall]
    | false => simp [CircuitBreaker.afterCall]

/-- C6 (witness): a breaker built by `new(3, 100, 2)` evaluated concretely:
in Open since instant 7, a call at instant 50 is rejected and a call at
instant 107 is forwarded through HalfOpen. -/
theorem circuit_breaker_call_spec_witness :
    ((50 : Nat) - 7 < (CircuitBreaker.new 3 100 2).openDuration ∧
      (CircuitBreaker.new 3 100 2).call (.opened 7) 50 true =
        (.rejectedCircuitOpen, .opened 7)) ∧
    ((CircuitBreaker.new 3 100 2).openDuration ≤ (107 : Nat) - 7 ∧
      (CircuitBreaker.new 3 100 2).call (.opened 7) 107 true =
        (.forwarded true, .halfOpen 1)) :=
  ⟨⟨by decide,
      (circuit_breaker_call_spec (CircuitBreaker.new 3 100 2) 0 0 7 50 true).2.2.1
        (by decide)⟩,
    ⟨by decide, by
      have h := (circuit_breaker_call_spec (CircuitBreaker.new 3 100 2) 0 0 7 107
          true).2.2.2.1 (by decide)
      rw [h]
      decide⟩⟩

/-! ## C7 — retry with timeout (corrected)

The invocation counting and result selection hold as claimed.  The claimed
sleep formula does not: `min(max_delay, base_delay * 2^a)` equals the
actual sleep only while the exponent stays below 2^32 (the source casts the
attempt index to u32 before `saturating_pow`), and the delay before the
first retry is `min(max_delay, base_delay)`, which is `base_delay` only
when `base_delay ≤ max_delay`. -/

theorem retryAux_invocations_le (p : RetryPolicy) (f : Nat → AttemptOutcome α)
    (gas : Nat) : ∀ attempt, (retryAux p f attempt gas).invocations ≤ attempt + gas + 1 := by
  induction gas with
  | zero =>
    intro attempt
    unfold retryAux
    cases f attempt <;> simp
  | succ gas ih =>
    intro attempt
    unfold retryAux
    cases f attempt with
    | ok v => simp
    | failed =>
      have h := ih (attempt + 1)
      simp only
      omega
    | timedOut =>
      have h := ih (attempt + 1)
      simp only
      omega

theorem retryAux_all_fail (p : RetryPolicy) (f : Nat → AttemptOutcome α)
    (gas : Nat) :
    ∀ attempt, (∀ j, attempt ≤ j → j ≤ attempt + gas → ∀ v, f j ≠ .ok v) →
    (retryAux p f attempt gas).invocations = attempt + gas + 1 ∧
    (retryAux p f attempt gas).sleeps
      = (List.range' (attempt + 1) gas).map p.backoffDelay ∧
    (f (attempt + gas) = .failed →
      (retryAux p f attempt gas).result = .error .lastError) ∧
    (f (attempt + gas) = .timedOut →
      (retryAux p f attempt gas).result = .error .timeout) := by
  induction gas with
  | zero =>
    intro attempt h
    unfold retryAux
    cases hfa : f attempt with
    | ok v => exact absurd hfa (h attempt le_rfl (by omega) v)
    | failed => simp [hfa]
    | timedOut => simp [hfa]
  | succ gas ih =>
    intro attempt h
    have ihh := ih (attempt + 1) (fun j h1 h2 v => h j (by omega) (by omega) v)
    have harith : attempt + 1 + gas = attempt + (gas + 1) := by omega
    unfold retryAux
    cases hfa : f attempt with
    | ok v => exact absurd hfa (h attempt le_rfl (by omega) v)
    | failed =>
      refine ⟨?_, ?_, ?_, ?_⟩
      · simp only
        rw [ihh.1]; omega
      · simp only [List.range'_succ, List.map_cons]
        rw [ihh.2.1]
      · intro hlast
        simp only
        exact ihh.2.2.1 (by rw [harith]; exact hlast)
      · intro hlast
        simp only
        exact ihh.2.2.2 (by rw [harith]; exact hlast)
    | timedOut =>
      refine ⟨?_, ?_, ?_, ?_⟩
      · simp only
        rw [ihh.1]; omega
      · simp only [List.range'_succ, List.map_cons]
        rw [ihh.2.1]
      · intro hlast
        simp only
        exact ihh.2.2.1 (by rw [harith]; exact hlast)
      · intro hlast
        simp only
        exact ihh.2.2.2 (by rw [harith]; exact hlast)

theorem retryAux_first_success (p : RetryPolicy) (f : Nat → AttemptOutcome α)
    (v : α) (k : Nat) :
    ∀ attempt gas, k ≤ gas → f (attempt + k) = .ok v →
    (∀ j, attempt ≤ j → j < attempt + k → ∀ u, f j ≠ .ok u) →
    retryAux p f attempt gas
      = ⟨.ok v, attempt + k + 1, (List.range' (attempt + 1) k).map p.backoffDelay⟩ := by
  induction k with
  | zero =>
    intro attempt gas _ hok _
    rw [Nat.add_zero] at hok
    cases gas with
    | zero => unfold retryAux; rw [hok]; rfl
    | succ gas => unfold retryAux; rw [hok]; rfl
  | succ k ih =>
    intro attempt gas hk hok hfail
    cases gas with
    | zero => omega
    | succ gas =>
      unfold retryAux
      cases hfa : f attempt with
      | ok u => exact absurd hfa (hfail attempt le_rfl (by omega) u)
      | failed =>
        have hrec := ih (attempt + 1) gas (by omega)
          (by rw [show attempt + 1 + k = attempt + (k + 1) from by omega]; exact hok)
          (fun j h1 h2 u => hfail j (by omega) (by omega) u)
        rw [show attempt + (k + 1) + 1 = attempt + 1 + k + 1 from by omega,
          List.range'_succ, List.map_cons]
        simp only [hrec]
      | timedOut =>
        have hrec := ih (attempt + 1) gas (by omega)
          (by rw [show attempt + 1 + k = attempt + (k + 1) from by omega]; exact hok)
          (fun j h1 h2 u => hfail j (by omega) (by omega) u)
        rw [show attempt + (k + 1) + 1 = attempt + 1 + k + 1 from by omega,
          List.range'_succ, List.map_cons]
        simp only [hrec]

/-- C7 (counterexample): with `base_delay = 10` and `max_delay = 5`, the
delay slept before the first retry is `min(max_delay, base_delay) = 5`,
not `base_delay = 10` as the claim states. -/
theorem retry_first_delay_counterexample :
    (retryWithTimeout ⟨1, 10, 5⟩ (fun _ => (.failed : AttemptOutcome Unit))).sleeps
      = [5] ∧
    (retryWithTimeout ⟨1, 10, 5⟩ (fun _ => (.failed : AttemptOutcome Unit))).invocations
      = 2 ∧
    (5 : Nat) ≠ 10 := by
  decide

/-- C7 (amended): `retry_with_timeout` invokes `f` at most
`max_retries + 1` times and returns the first success (having slept the
back-off delays of the preceding retries); when every attempt fails or
times out it returns the last attempt's error (or the timeout error) after
exactly `max_retries + 1` invocations, sleeping `backoff_delay(a)` before
retry `a`; `backoff_delay(a) = min(max_delay, sat(base_delay * sat(2^(a-1))))`
holds for attempt indices `a ≤ 2^32` (the source truncates the exponent to
u32 first), and the delay before the first retry is
`min(max_delay, base_delay)` — equal to `base_delay` only when
`base_delay ≤ max_delay`. -/
theorem retry_with_timeout_amended {α : Type} (p : RetryPolicy)
    (f : Nat → AttemptOutcome α) :
    (retryWithTimeout p f).invocations ≤ p.maxRetries + 1 ∧
    (∀ k v, k ≤ p.maxRetries → f k = .ok v →
      (∀ j, j < k → ∀ u, f j ≠ .ok u) →
      retryWithTimeout p f
        = ⟨.ok v, k + 1, (List.range' 1 k).map p.backoffDelay⟩) ∧
    ((∀ a, a ≤ p.maxRetries → ∀ v, f a ≠ .ok v) →
      (retryWithTimeout p f).invocations = p.maxRetries + 1 ∧
      (retryWithTimeout p f).sleeps
        = (List.range' 1 p.maxRetries).map p.backoffDelay ∧
      (f p.maxRetries = .failed →
        (retryWithTimeout p f).result = .error .lastError) ∧
      (f p.maxRetries = .timedOut →
        (retryWithTimeout p f).result = .error .timeout)) ∧
    (∀ a, 0 < a → a ≤ 2 ^ 32 →
      p.backoffDelay a
        = min (min (p.baseDelay * min (2 ^ (a - 1)) u32Max) durationMax) p.maxDelay) ∧
    (p.baseDelay ≤ durationMax →
      p.backoffDelay 1 = min p.maxDelay p.baseDelay) := by
  refine ⟨?_, ?_, ?_, ?_, ?_⟩
  · simpa using retryAux_invocations_le p f p.maxRetries 0
  · intro k v hk hok hfail
    have h := retryAux_first_success p f v k 0 p.maxRetries hk (by simpa using hok)
      (fun j h1 h2 u => hfail j (by omega) u)
    simpa using h
  · intro hall
    have h := retryAux_all_fail p f p.maxRetries 0
      (fun j h1 h2 v => hall j (by omega) v)
    refine ⟨by simpa using h.1, by simpa using h.2.1, ?_, ?_⟩
    · intro hlast
      exact h.2.2.1 (by simpa using hlast)
    · intro hlast
      exact h.2.2.2 (by simpa using hlast)
  · intro a ha0 ha32
    unfold RetryPolicy.backoffDelay satPow2u32
    rw [if_neg (by omega), Nat.mod_eq_of_lt (by omega)]
  · intro hbase
    unfold RetryPolicy.backoffDelay satPow2u32
    rw [if_neg one_ne_zero]
    norm_num [u32Max]
    rw [← min_assoc, min_eq_left hbase, min_comm]

/-- C7 (witness): the amended all-fail behaviour evaluated on the policy
`{max_retries 2, base_delay 3, max_delay 100}` with an always-failing
operation: three invocations, sleeps 3 then 6, final error is the last
attempt's own error. -/
theorem retry_with_timeout_amended_witness :
    (retryWithTimeout ⟨2, 3, 100⟩ (fun _ => (.failed : AttemptOutcome Unit))).invocations
      = 2 + 1 ∧
    (retryWithTimeout ⟨2, 3, 100⟩ (fun _ => (.failed : AttemptOutcome Unit))).sleeps
      = [3, 6] ∧
    (retryWithTimeout ⟨2, 3, 100⟩ (fun _ => (.failed : AttemptOutcome Unit))).result
      = .error .lastError := by
  have h := (retry_with_timeout_amended ⟨2, 3, 100⟩
      (fun _ => (.failed : AttemptOutcome Unit))).2.2.1
    (fun a _ v hv => AttemptOutcome.noConfusion hv)
  refine ⟨h.1, ?_, h.2.2.1 rfl⟩
  rw [h.2.1]
  decide

/-! ## C9 — subscriber noise-floor and self-source filters (confirmed) -/

theorem acceptsWave_eq_true (cfg : VibratorConfig) (w : Wave)
    (h : acceptsWave cfg w = true) :
    cfg.noiseFloor ≤ w.amplitude.val ∧ w.source ≠ some cfg.name := by
  unfold acceptsWave at h
  simp only [Bool.and_eq_true, Bool.not_eq_true', beq_eq_false_iff_ne, ne_eq,
    decide_eq_false_iff_not, not_lt] at h
  exact ⟨h.2, h.1⟩

theorem receiveSweep_some (cfg : VibratorConfig) :
    ∀ (qs : List (List Wave)) (w : Wave),
      (receiveSweep cfg qs).1 = some w → acceptsWave cfg w = true := by
  intro qs
  induction qs with
  | nil => intro w h; simp [receiveSweep] at h
  | cons q qs ih =>
    intro w h
    cases q with
    | nil =>
      simp only [receiveSweep] at h
      exact ih w h
    | cons w0 rest =>
      simp only [receiveSweep] at h
      split_ifs at h with hacc
      · simp only at h
        injection h with h
        exact h ▸ hacc
      · exact ih w h

theorem receiveLoop_some (cfg : VibratorConfig) :
    ∀ (fuel : Nat) (qs : List (List Wave)) (w : Wave),
      receiveLoop cfg fuel qs = some w → acceptsWave cfg w = true := by
  intro fuel
  induction fuel with
  | zero => intro qs w h; simp [receiveLoop] at h
  | succ fuel ih =>
    intro qs w h
    rw [receiveLoop] at h
    rcases hsw : receiveSweep cfg qs with ⟨r, qs'⟩
    rw [hsw] at h
    cases r with
    | some w1 =>
      simp only at h
      injection h with h
      refine h ▸ receiveSweep_some cfg qs w1 ?_
      rw [hsw]
    | none =>
      simp only at h
      exact ih qs' w h

theorem receiveFromQueue_some (cfg : VibratorConfig) :
    ∀ (q : List Wave) (w : Wave),
      receiveFromQueue cfg q = some w → acceptsWave cfg w = true := by
  intro q
  induction q with
  | nil => intro w h; simp [receiveFromQueue] at h
  | cons w0 rest ih =>
    intro w h
    simp only [receiveFromQueue] at h
    split_ifs at h with hacc
    · injection h with h
      exact h ▸ hacc
    · exact ih w h

/-- C9: neither `receive` nor `receive_from` ever returns a wave whose
amplitude is strictly below the vibrator's noise floor, nor one whose
source equals the vibrator's own name; filtered waves are consumed and
polling moves on. -/
theorem vibrator_filters_noise_and_self (cfg : VibratorConfig) (fuel : Nat)
    (queues : List (List Wave)) (receivers : List (Channel × List Wave))
    (ch : Channel) (w w' : Wave) :
    (receive cfg fuel queues = some w →
      cfg.noiseFloor ≤ w.amplitude.val ∧ w.source ≠ some cfg.name) ∧
    (receiveFrom cfg receivers ch = some w' →
      cfg.noiseFloor ≤ w'.amplitude.val ∧ w'.source ≠ some cfg.name) := by
  constructor
  · intro h
    unfold receive at h
    split_ifs at h
    exact acceptsWave_eq_true cfg w (receiveLoop_some cfg fuel queues w h)
  · intro h
    unfold receiveFrom at h
    cases hf : receivers.find? (fun pr => pr.1 == ch) with
    | none => rw [hf] at h; cases h
    | some pr =>
      rw [hf] at h
      exact acceptsWave_eq_true cfg w' (receiveFromQueue_some cfg pr.2 w' h)

/-- C9 (witness): the filters evaluated concretely — a queue holding a
below-noise-floor wave then an acceptable one yields the acceptable one via
`receive`, and a queue holding a self-sourced wave, a low wave and an
acceptable one yields the acceptable one via `receive_from`. -/
theorem vibrator_filters_noise_and_self_witness :
    (receive sampleVibrator 2 [[sampleWaveLow, sampleWave]] = some sampleWave ∧
      sampleVibrator.noiseFloor ≤ sampleWave.amplitude.val ∧
      sampleWave.source ≠ some sampleVibrator.name) ∧
    (receiveFrom sampleVibrator
        [(Channel.new "a", [sampleWaveSelf, sampleWaveLow, sampleWave])]
        (Channel.new "a") = some sampleWave ∧
      sampleVibrator.noiseFloor ≤ sampleWave.amplitude.val ∧
      sampleWave.source ≠ some sampleVibrator.name) :=
  ⟨⟨rfl,
      (vibrator_filters_noise_and_self sampleVibrator 2 [[sampleWaveLow, sampleWave]]
          [] (Channel.new "a") sampleWave sampleWave).1 rfl⟩,
    ⟨rfl,
      (vibrator_filters_noise_and_self sampleVibrator 0 []
          [(Channel.new "a", [sampleWaveSelf, sampleWaveLow, sampleWave])]
          (Channel.new "a") sampleWave sampleWave).2 rfl⟩⟩

end AetherSpec
